import Mathlib

/-!
Verification of the session-scoped key-harvesting SSH server
(mattbostock/checkmysshkey, src/server.go).

The Go source is shallowly embedded: the global `sessions` map becomes an
association list `Registry`; the two authentication callbacks become pure
functions returning the Go `(permissions, error)` pair as
`Option Permissions × Option String` (where `none` models a nil error and
`some s` models `errors.New(s)`); the per-channel request goroutine of
`serve` becomes a step function on an explicit `ChanState` driven by a list
of request events; the report-writing phase of `serve` becomes a function
producing the ordered list of channel writes.
-/

namespace CheckMySSHKey

/-- Go constant `ssh.KeyAlgoRSA` from golang.org/x/crypto/ssh. -/
def KeyAlgoRSA : String := "ssh-rsa"

/-- Go constant `ssh.KeyAlgoDSA` from golang.org/x/crypto/ssh. -/
def KeyAlgoDSA : String := "ssh-dss"

/-- An `ssh.PublicKey` as the embedding sees it: its algorithm name
(`key.Type()`), the deterministic fingerprint derived from the key material,
and the outcome of parsing the key material for its bit length
(`none` models a key whose bit-length computation fails). -/
structure SSHPublicKey where
  keyType : String
  fingerprintStr : String
  bitLenRes : Option Nat
deriving DecidableEq

/-- The repository's `publicKey` record (struct `publicKey` in key.go,
constructed in server.go as `&publicKey{key: key}`): the raw key plus the
`blacklisted` flag set later by `markBlacklistedKeys`. -/
structure publicKey where
  key : SSHPublicKey
  blacklisted : Bool
deriving DecidableEq

/-- Modelled from the spec: the method `BitLen` of `publicKey` lives in a
repository file that is not under src/ ("derived bit length (may fail to
compute → error state, not fatal)").  It returns the Go pair
`(bitLen int, err error)`; on failure the Go zero value 0 is returned
together with a non-nil error, modelled here as the flag `true`. -/
def publicKey.BitLen (k : publicKey) : Nat × Bool :=
  match k.key.bitLenRes with
  | some n => (n, false)
  | none => (0, true)

/-- Modelled from the spec: the method `Fingerprint` of `publicKey` lives in
a repository file that is not under src/ ("derived fingerprint
(deterministic hash of key material)").  The deterministic hash is carried
on the key record itself. -/
def publicKey.Fingerprint (k : publicKey) : String := k.key.fingerprintStr

/-- Modelled from the spec: `markBlacklistedKeys` lives in a repository file
that is not under src/; per the spec it resolves each key against the
external predicate `isBlacklisted(keyMaterial) -> bool` and sets the
record's `blacklisted` flag. -/
def markBlacklistedKeys (isBlacklisted : SSHPublicKey → Bool)
    (keys : List publicKey) : List publicKey :=
  keys.map fun k => { k with blacklisted := isBlacklisted k.key }

/-- A session identity: `string(conn.SessionID())`. -/
abbrev SessionID := String

/-- The global `sessions.keys` map `map[string][]*publicKey`, embedded as an
association list.  A Go map lookup of an absent key yields a nil slice, so
`lookup` returns `[]` for an absent session identity, while `hasEntry`
distinguishes a genuinely present entry (Go `delete` removes the entry). -/
abbrev Registry := List (SessionID × List publicKey)

/-- Go map read `sessions.keys[sessionID]`: nil slice (here `[]`) if absent. -/
def Registry.lookup : Registry → SessionID → List publicKey
  | [], _ => []
  | (i, ks) :: rest, sid => if i = sid then ks else Registry.lookup rest sid

/-- Go map write `sessions.keys[sessionID] = v`. -/
def Registry.store : Registry → SessionID → List publicKey → Registry
  | [], sid, v => [(sid, v)]
  | (i, ks) :: rest, sid, v =>
      if i = sid then (sid, v) :: rest else (i, ks) :: Registry.store rest sid v

/-- The append performed by `publicKeyCallback`:
`sessions.keys[sessionID] = append(sessions.keys[sessionID], k)`. -/
def Registry.record (r : Registry) (sid : SessionID) (k : publicKey) : Registry :=
  r.store sid (r.lookup sid ++ [k])

/-- Go `delete(sessions.keys, sessionID)`. -/
def Registry.erase : Registry → SessionID → Registry
  | [], _ => []
  | (i, ks) :: rest, sid =>
      if i = sid then Registry.erase rest sid
      else (i, ks) :: Registry.erase rest sid

/-- Whether the map has an entry for the given session identity. -/
def Registry.hasEntry : Registry → SessionID → Bool
  | [], _ => false
  | (i, _) :: rest, sid => i == sid || Registry.hasEntry rest sid

/-- `ssh.Permissions`: critical options and extensions. -/
structure Permissions where
  criticalOptions : List (String × String)
  extensions : List (String × String)
deriving DecidableEq

/-- The part of `ssh.ConnMetadata` the server uses: the session identity. -/
structure ConnMetadata where
  sessionID : SessionID
deriving DecidableEq

/-- The Go return pair `(*ssh.Permissions, error)` of an authentication
callback; a nil error is `none`, `errors.New(s)` is `some s`. -/
abbrev AuthOutcome := Option Permissions × Option String

/-- `publicKeyCallback` (server.go lines 170-178): appends a new
`publicKey{key: key}` under the session identity and always denies with
`(nil, errors.New(""))`. -/
def publicKeyCallback (r : Registry) (conn : ConnMetadata) (key : SSHPublicKey) :
    Registry × AuthOutcome :=
  (r.record conn.sessionID ⟨key, false⟩, (none, some ""))

/-- `keyboardInteractiveCallback` (server.go lines 180-185): returns
`(nil, nil)` without ever invoking the challenge; the second component
counts challenges issued to the user, which is always 0. -/
def keyboardInteractiveCallback (_conn : ConnMetadata) : AuthOutcome × Nat :=
  ((none, none), 0)

/-- One key-offer step of the transport layer's authentication loop: invoke
`publicKeyCallback` and append its outcome to the denial transcript. -/
def harvestFold (conn : ConnMetadata) (acc : Registry × List AuthOutcome)
    (key : SSHPublicKey) : Registry × List AuthOutcome :=
  ((publicKeyCallback acc.1 conn key).1, acc.2 ++ [(publicKeyCallback acc.1 conn key).2])

/-- The transport layer's authentication phase for one connection attempt:
each offered key is fed to `publicKeyCallback` in order; once all key-based
attempts are exhausted, `keyboardInteractiveCallback` is invoked once.
Returns the updated registry, the per-key outcomes in offer order, and the
fallback's outcome together with its challenge count. -/
def runAuth (r : Registry) (conn : ConnMetadata) (offered : List SSHPublicKey) :
    Registry × List AuthOutcome × (AuthOutcome × Nat) :=
  let acc := offered.foldl (harvestFold conn) (r, [])
  (acc.1, acc.2, keyboardInteractiveCallback conn)

/-- One rendered table row: the arguments of
`fmt.Fprintf(tabWriter, "%d\t%s\t%s\t%s\t\n", length, k.key.Type(), k.Fingerprint(), issues)`. -/
structure AuditRow where
  bits : Nat
  keyType : String
  fingerprint : String
  issues : String
deriving DecidableEq

/-- The condition of server.go line 122:
`length < 2048 && k.key.Type() == ssh.KeyAlgoRSA`. -/
def isWeakRSA (k : publicKey) : Bool :=
  decide (k.BitLen.1 < 2048) && (k.key.keyType == KeyAlgoRSA)

/-- The condition of server.go line 117: `k.key.Type() == ssh.KeyAlgoDSA`. -/
def isDSAKey (k : publicKey) : Bool := k.key.keyType == KeyAlgoDSA

/-- The `issues` string computed by the loop body of server.go lines
110-131: start from "No known issues", overwrite with "DSA KEY" for DSA,
then "WEAK KEY LENGTH" for short RSA, and finally "BLACKLISTED" for a
blacklisted key (the last check, so it takes priority). -/
def keyIssues (k : publicKey) : String :=
  let issues := "No known issues"
  let issues := if isDSAKey k then "DSA KEY" else issues
  let issues := if isWeakRSA k then "WEAK KEY LENGTH" else issues
  if k.blacklisted then "BLACKLISTED" else issues

/-- The table row written for one key (server.go line 133); the bits column
is `length` as returned by `BitLen` even when the computation failed. -/
def rowOf (k : publicKey) : AuditRow :=
  ⟨k.BitLen.1, k.key.keyType, k.Fingerprint, keyIssues k⟩

/-- The four tab-terminated textual fields of one row, in print order:
`%d` of the length, the key type, the fingerprint, and the issues string. -/
def renderedFields (r : AuditRow) : List String :=
  [toString r.bits, r.keyType, r.fingerprint, r.issues]

/-- Result of the audit loop of server.go lines 107-134: the rows in key
order, and the three session-level flags. -/
structure AuditResult where
  rows : List AuditRow
  blacklisted : Bool
  dsa : Bool
  weak : Bool
deriving DecidableEq

/-- The audit loop of server.go lines 107-134, threading the three
session-level flags exactly as the Go loop does (each flag is set to true
when its condition holds and otherwise keeps its prior value). -/
def auditLoop : List publicKey → Bool → Bool → Bool → AuditResult
  | [], b, d, w => ⟨[], b, d, w⟩
  | k :: ks, b, d, w =>
      let d1 := if isDSAKey k then true else d
      let w1 := if isWeakRSA k then true else w
      let b1 := if k.blacklisted then true else b
      let rest := auditLoop ks b1 d1 w1
      ⟨rowOf k :: rest.rows, rest.blacklisted, rest.dsa, rest.weak⟩

/-- An event seen by the per-channel request goroutine: a named request
with its want-reply flag, or the firing of the 30-second timer armed at
server.go line 67. -/
inductive ReqEvent where
  | req (ty : String) (wantReply : Bool)
  | timerFire
deriving DecidableEq

/-- The 30-second bound of the timer armed at server.go line 67. -/
def requestTimeoutSeconds : Nat := 30

/-- Per-channel state of the request goroutine of server.go lines 64-94:
the two forwarding flags, whether the timer is still pending (a Go
`timer.Stop()` returns true exactly when the timer was still pending),
the number of times `reqLock.Unlock()` has run (latch openings), and the
acknowledgements sent so far in order. -/
structure ChanState where
  agentFwd : Bool
  x11 : Bool
  timerActive : Bool
  opens : Nat
  replies : List Bool
deriving DecidableEq

/-- State right after server.go lines 64-67: flags false, lock held,
timer armed, no replies sent. -/
def initChanState : ChanState :=
  ⟨false, false, true, 0, []⟩

/-- `if timeout.Stop() { reqLock.Unlock() }` for a request, and the timer
callback `reqLock.Unlock()` itself: the latch opens only when the timer
was still pending, and the timer becomes spent either way. -/
def stopAndOpen (s : ChanState) : ChanState :=
  if s.timerActive then
    { s with timerActive := false, opens := s.opens + 1 }
  else s

/-- One iteration of the request loop of server.go lines 69-94, or the
timer firing.  `ok` is true only for "shell" and "pty-req"; agent and x11
requests set their flags but leave `ok` false; a want-reply request gets
exactly one acknowledgement `req.Reply(ok, nil)` before the next event. -/
def stepEvent (s : ChanState) : ReqEvent → ChanState
  | ReqEvent.timerFire => stopAndOpen s
  | ReqEvent.req ty wantReply =>
      let ok := ty == "shell" || ty == "pty-req"
      let s1 := if ty == "shell" || ty == "pty-req" then stopAndOpen s else s
      let s2 := if ty == "auth-agent-req@openssh.com" then { s1 with agentFwd := true } else s1
      let s3 := if ty == "x11-req" then { s2 with x11 := true } else s2
      if wantReply then { s3 with replies := s3.replies ++ [ok] } else s3

/-- A complete run of the channel's request handling: process the event
stream, then account for the armed timer, which eventually fires unless a
pty/shell request stopped it (Go `time.AfterFunc` runs its callback exactly
once unless `Stop` succeeded). -/
def runChannelRequests (events : List ReqEvent) : ChanState :=
  stepEvent (events.foldl stepEvent initChanState) ReqEvent.timerFire

/-- The acknowledgement each event should receive per the source: one reply
per want-reply request, in order, affirmative exactly for "shell" and
"pty-req". -/
def expectedReplies (events : List ReqEvent) : List Bool :=
  events.filterMap fun e =>
    match e with
    | ReqEvent.req ty true => some (ty == "shell" || ty == "pty-req")
    | _ => none

/-- One write performed on the channel by server.go lines 96-165, in
program order. -/
inductive WriteItem where
  | welcome
  | row (r : AuditRow)
  | blacklistMsg
  | dsaMsg
  | weakMsg
  | latchWait
  | agentMsg
  | x11Msg
  | closeChannel
deriving DecidableEq

/-- The ordered channel activity of server.go lines 96-165 for one accepted
session channel: mark blacklisted keys, write the welcome text, write the
table (one row per key in harvest order), write the three aggregate warning
paragraphs guarded by their flags, block on the latch (`reqLock.Lock()`),
write the two forwarding warnings guarded by their flags, close the
channel. -/
def channelOutput (isBlacklisted : SSHPublicKey → Bool) (keys0 : List publicKey)
    (events : List ReqEvent) : List WriteItem :=
  let keys := markBlacklistedKeys isBlacklisted keys0
  let st := runChannelRequests events
  let res := auditLoop keys false false false
  let out : List WriteItem := [WriteItem.welcome]
  let out := out ++ res.rows.map WriteItem.row
  let out := if res.blacklisted then out ++ [WriteItem.blacklistMsg] else out
  let out := if res.dsa then out ++ [WriteItem.dsaMsg] else out
  let out := if res.weak then out ++ [WriteItem.weakMsg] else out
  let out := out ++ [WriteItem.latchWait]
  let out := if st.agentFwd then out ++ [WriteItem.agentMsg] else out
  let out := if st.x11 then out ++ [WriteItem.x11Msg] else out
  out ++ [WriteItem.closeChannel]

/-- The registry effect and channel outputs of `serve` (server.go lines
25-168) for one connection: when the handshake fails, `serve` returns at
line 30 before the deferred cleanup of lines 33-38 is registered, so the
registry is untouched; when it succeeds, the keys for the session identity
are read once, each session channel is reported, and on exit the deferred
`delete(sessions.keys, ...)` removes the entry. -/
def serveConn (isBlacklisted : SSHPublicKey → Bool) (r : Registry)
    (sid : SessionID) (handshakeOK : Bool)
    (chanTraces : List (List ReqEvent)) : Registry × List (List WriteItem) :=
  if handshakeOK then
    (r.erase sid, chanTraces.map (channelOutput isBlacklisted (r.lookup sid)))
  else (r, [])

/-- Demo key: a 1024-bit RSA key (weak length, not blacklisted). -/
def demoWeakRSAKey : SSHPublicKey := ⟨"ssh-rsa", "fpRSA", some 1024⟩

/-- Demo key: a 256-bit ECDSA key whose fingerprint the demo blacklist
matches. -/
def demoECDSAKey : SSHPublicKey := ⟨"ecdsa-sha2-nistp256", "fpEC", some 256⟩

/-- Demo key: an RSA key whose bit-length computation fails. -/
def demoFailKey : SSHPublicKey := ⟨"ssh-rsa", "fpF", none⟩

/-- Demo blacklist predicate: matches exactly the demo ECDSA key. -/
def demoBlacklist : SSHPublicKey → Bool := fun k => k.fingerprintStr == "fpEC"

/-- Demo key sequence as the harvester would store it. -/
def demoKeys : List publicKey := [⟨demoWeakRSAKey, false⟩, ⟨demoECDSAKey, false⟩]

/-- Registry state after one key was harvested for session "s": what
`publicKeyCallback` leaves behind when the handshake then fails. -/
def leakedRegistry : Registry := (publicKeyCallback [] ⟨"s"⟩ demoWeakRSAKey).1

theorem Registry.lookup_store_self (r : Registry) (sid : SessionID)
    (v : List publicKey) : (r.store sid v).lookup sid = v := by
  induction r with
  | nil => simp [Registry.store, Registry.lookup]
  | cons hd tl ih =>
      obtain ⟨i, ks⟩ := hd
      by_cases h : i = sid
      · simp [Registry.store, Registry.lookup, h]
      · simp [Registry.store, Registry.lookup, h, ih]

theorem Registry.lookup_record_self (r : Registry) (sid : SessionID)
    (k : publicKey) : (r.record sid k).lookup sid = r.lookup sid ++ [k] := by
  simp [Registry.record, Registry.lookup_store_self]

theorem Registry.hasEntry_erase (r : Registry) (sid : SessionID) :
    (r.erase sid).hasEntry sid = false := by
  induction r with
  | nil => simp [Registry.erase, Registry.hasEntry]
  | cons hd tl ih =>
      obtain ⟨i, ks⟩ := hd
      by_cases h : i = sid
      · simp [Registry.erase, h, ih]
      · simp [Registry.erase, Registry.hasEntry, h, ih]

theorem harvest_denials (conn : ConnMetadata) (offered : List SSHPublicKey) :
    ∀ (r : Registry) (ds : List AuthOutcome),
      (offered.foldl (harvestFold conn) (r, ds)).2
        = ds ++ offered.map (fun _ => (((none : Option Permissions), some "") : AuthOutcome)) := by
  induction offered with
  | nil => intro r ds; simp
  | cons key rest ih =>
      intro r ds
      simp only [List.foldl_cons, List.map_cons]
      rw [show harvestFold conn (r, ds) key
            = (Registry.record r conn.sessionID ⟨key, false⟩,
               ds ++ [(((none : Option Permissions), some "") : AuthOutcome)]) from rfl]
      rw [ih]
      simp

theorem harvest_registry (conn : ConnMetadata) (offered : List SSHPublicKey) :
    ∀ (r : Registry) (ds : List AuthOutcome),
      ((offered.foldl (harvestFold conn) (r, ds)).1).lookup conn.sessionID
        = r.lookup conn.sessionID
            ++ offered.map (fun key => (⟨key, false⟩ : publicKey)) := by
  induction offered with
  | nil => intro r ds; simp
  | cons key rest ih =>
      intro r ds
      simp only [List.foldl_cons, List.map_cons]
      rw [show harvestFold conn (r, ds) key
            = (Registry.record r conn.sessionID ⟨key, false⟩,
               ds ++ [(((none : Option Permissions), some "") : AuthOutcome)]) from rfl]
      rw [ih, Registry.lookup_record_self]
      simp

/-- Claim C1: for every sequence of N offered keys in one connection
attempt, the public-key callback denies all N attempts (nil permissions and
the non-nil error `errors.New("")` each time), the keyboard-interactive
fallback then succeeds once with zero challenges issued, and afterwards the
registry entry for the session identity holds exactly the N keys in offer
order. -/
theorem harvester_denies_then_admits (r : Registry) (conn : ConnMetadata)
    (offered : List SSHPublicKey) (h : r.lookup conn.sessionID = []) :
    (runAuth r conn offered).2.1
        = offered.map (fun _ => (((none : Option Permissions), some "") : AuthOutcome))
      ∧ (runAuth r conn offered).2.2
        = ((((none : Option Permissions), (none : Option String)) : AuthOutcome), 0)
      ∧ (runAuth r conn offered).1.lookup conn.sessionID
        = offered.map (fun key => (⟨key, false⟩ : publicKey)) := by
  refine ⟨?_, rfl, ?_⟩
  · simpa [runAuth] using harvest_denials conn offered r []
  · have hreg := harvest_registry conn offered r []
    rw [h] at hreg
    simpa [runAuth] using hreg

/-- Witness for C1 at a concrete two-key offer on an empty registry. -/
theorem harvester_denies_then_admits_witness :
    Registry.lookup [] "s" = []
      ∧ ((runAuth [] ⟨"s"⟩ [demoWeakRSAKey, demoECDSAKey]).2.1
           = [demoWeakRSAKey, demoECDSAKey].map
               (fun _ => (((none : Option Permissions), some "") : AuthOutcome))
         ∧ (runAuth [] ⟨"s"⟩ [demoWeakRSAKey, demoECDSAKey]).2.2
           = ((((none : Option Permissions), (none : Option String)) : AuthOutcome), 0)
         ∧ (runAuth [] ⟨"s"⟩ [demoWeakRSAKey, demoECDSAKey]).1.lookup "s"
           = [demoWeakRSAKey, demoECDSAKey].map
               (fun key => (⟨key, false⟩ : publicKey))) :=
  ⟨rfl, harvester_denies_then_admits [] ⟨"s"⟩ [demoWeakRSAKey, demoECDSAKey] rfl⟩

/-- Claim C9: the public-key callback's decision is identical for any two
offered keys in any two states: nil permissions and the same `errors.New("")`
denial, so the outcome carries no information about the key. -/
theorem publicKeyCallback_uniform_denial (r1 r2 : Registry)
    (c1 c2 : ConnMetadata) (k1 k2 : SSHPublicKey) :
    (publicKeyCallback r1 c1 k1).2 = (publicKeyCallback r2 c2 k2).2
      ∧ (publicKeyCallback r1 c1 k1).2
        = ((none : Option Permissions), some "") :=
  ⟨rfl, rfl⟩

/-- Counterexample for C2: a key is harvested for session "s", the
handshake then fails, and `serve` returns before its deferred cleanup is
registered — the registry still has the entry, contradicting "the registry
contains no entry for that session identity on every exit path, including
a failed handshake". -/
theorem handshake_failure_leaks_entry :
    leakedRegistry.hasEntry "s" = true
      ∧ (serveConn demoBlacklist leakedRegistry "s" false []).1.hasEntry "s" = true := by
  constructor <;> rfl

/-- Claim C2 as amended: the deferred `delete` removes the session's
registry entry on every exit of `serve` that follows a successful
handshake; when the handshake fails, `serve` returns before the cleanup is
registered and the registry is left exactly as it was, so any harvested
entry persists. -/
theorem registry_cleanup_on_success (isBL : SSHPublicKey → Bool) (r : Registry)
    (sid : SessionID) (traces : List (List ReqEvent)) :
    (serveConn isBL r sid true traces).1.hasEntry sid = false
      ∧ (serveConn isBL r sid false traces).1 = r := by
  constructor
  · simp [serveConn, Registry.hasEntry_erase]
  · rfl

/-- Claim C4: a key that is both blacklisted and DSA classifies as
"BLACKLISTED", never "DSA KEY" — the blacklist check runs last in the loop
body and overwrites every other finding. -/
theorem blacklist_overrides_dsa (k : publicKey) (hb : k.blacklisted = true)
    (_hd : k.key.keyType = KeyAlgoDSA) :
    keyIssues k = "BLACKLISTED" ∧ keyIssues k ≠ "DSA KEY" := by
  constructor
  · simp [keyIssues, hb]
  · simp [keyIssues, hb]

/-- Witness for C4 at a concrete blacklisted DSA key. -/
theorem blacklist_overrides_dsa_witness :
    (⟨⟨"ssh-dss", "fpD", some 1024⟩, true⟩ : publicKey).blacklisted = true
      ∧ (⟨⟨"ssh-dss", "fpD", some 1024⟩, true⟩ : publicKey).key.keyType = KeyAlgoDSA
      ∧ (keyIssues ⟨⟨"ssh-dss", "fpD", some 1024⟩, true⟩ = "BLACKLISTED"
         ∧ keyIssues ⟨⟨"ssh-dss", "fpD", some 1024⟩, true⟩ ≠ "DSA KEY") :=
  ⟨rfl, rfl, blacklist_overrides_dsa ⟨⟨"ssh-dss", "fpD", some 1024⟩, true⟩ rfl rfl⟩

/-- Claim C5: a non-blacklisted RSA key whose bit length computes
successfully classifies as "No known issues" at exactly 2048 bits and as
"WEAK KEY LENGTH" at 2047 bits — the threshold is a strict less-than
against 2048. -/
theorem rsa_2048_boundary (k : publicKey) (n : Nat)
    (hb : k.blacklisted = false) (ht : k.key.keyType = KeyAlgoRSA)
    (hl : k.key.bitLenRes = some n) :
    (n = 2048 → keyIssues k = "No known issues")
      ∧ (n = 2047 → keyIssues k = "WEAK KEY LENGTH") := by
  have hbit : k.BitLen = (n, false) := by simp [publicKey.BitLen, hl]
  have hdsa : isDSAKey k = false := by
    simp [isDSAKey, ht, KeyAlgoRSA, KeyAlgoDSA]
  constructor
  · intro hn
    have hw : isWeakRSA k = false := by
      simp [isWeakRSA, hbit, hn]
    simp [keyIssues, hb, hdsa, hw]
  · intro hn
    have hw : isWeakRSA k = true := by
      simp [isWeakRSA, hbit, hn, ht, KeyAlgoRSA]
    simp [keyIssues, hb, hdsa, hw]

/-- Witness for C5 at concrete 2048-bit and 2047-bit RSA keys. -/
theorem rsa_2048_boundary_witness :
    keyIssues ⟨⟨"ssh-rsa", "fpA", some 2048⟩, false⟩ = "No known issues"
      ∧ keyIssues ⟨⟨"ssh-rsa", "fpB", some 2047⟩, false⟩ = "WEAK KEY LENGTH" :=
  ⟨(rsa_2048_boundary ⟨⟨"ssh-rsa", "fpA", some 2048⟩, false⟩ 2048 rfl rfl rfl).1 rfl,
   (rsa_2048_boundary ⟨⟨"ssh-rsa", "fpB", some 2047⟩, false⟩ 2047 rfl rfl rfl).2 rfl⟩

theorem auditLoop_rows (ks : List publicKey) :
    ∀ b d w, (auditLoop ks b d w).rows = ks.map rowOf := by
  induction ks with
  | nil => intro b d w; rfl
  | cons k t ih => intro b d w; simp [auditLoop, ih]

/-- Counterexample for C8: for the concrete RSA key whose bit-length
computation fails, the audit row's length field renders as the non-empty
string "0" (the error-path value), not as an empty/unknown field as the
claim states. -/
theorem bitlen_failure_row_not_empty :
    renderedFields (rowOf ⟨demoFailKey, false⟩)
        = ["0", "ssh-rsa", "fpF", "WEAK KEY LENGTH"]
      ∧ (renderedFields (rowOf ⟨demoFailKey, false⟩)).head? ≠ some "" := by
  constructor <;> decide

/-- Claim C8 as amended: a key whose bit-length computation fails still
gets a table row — the audit emits one row per key, in order, for every
key sequence — but the length field holds the numeric error-path value 0
(rendered "0") rather than being left empty; auditing always continues
through all remaining keys. -/
theorem audit_row_on_bitlen_failure (ks : List publicKey) (b d w : Bool) :
    (auditLoop ks b d w).rows = ks.map rowOf
      ∧ ∀ k : publicKey, k.key.bitLenRes = none →
          (rowOf k).bits = 0 ∧ (renderedFields (rowOf k)).head? = some "0" := by
  refine ⟨auditLoop_rows ks b d w, ?_⟩
  intro k hk
  have hbit : k.BitLen = (0, true) := by simp [publicKey.BitLen, hk]
  constructor
  · simp [rowOf, hbit]
  · simp only [renderedFields, rowOf, hbit, List.head?]
    rfl

/-- Witness for C8's amended statement at a concrete failing key. -/
theorem audit_row_on_bitlen_failure_witness :
    (auditLoop [⟨demoFailKey, false⟩, ⟨demoECDSAKey, false⟩] false false false).rows
        = [⟨demoFailKey, false⟩, ⟨demoECDSAKey, false⟩].map rowOf
      ∧ (⟨demoFailKey, false⟩ : publicKey).key.bitLenRes = none
      ∧ ((rowOf ⟨demoFailKey, false⟩).bits = 0
         ∧ (renderedFields (rowOf ⟨demoFailKey, false⟩)).head? = some "0") :=
  ⟨(audit_row_on_bitlen_failure [⟨demoFailKey, false⟩, ⟨demoECDSAKey, false⟩]
      false false false).1,
   rfl,
   (audit_row_on_bitlen_failure [] false false false).2 ⟨demoFailKey, false⟩ rfl⟩

/-- Claim C10: a non-blacklisted RSA key whose bit-length computation fails
is audited with length 0 (the Go zero value returned with the error), so it
classifies as "WEAK KEY LENGTH" and its table row prints 0 in the length
column. -/
theorem bitlen_failure_weak_classification (k : publicKey)
    (hf : k.key.bitLenRes = none) (hb : k.blacklisted = false)
    (ht : k.key.keyType = KeyAlgoRSA) :
    keyIssues k = "WEAK KEY LENGTH"
      ∧ (rowOf k).bits = 0
      ∧ (renderedFields (rowOf k)).head? = some "0" := by
  have hbit : k.BitLen = (0, true) := by simp [publicKey.BitLen, hf]
  have hdsa : isDSAKey k = false := by
    simp [isDSAKey, ht, KeyAlgoRSA, KeyAlgoDSA]
  have hw : isWeakRSA k = true := by
    simp [isWeakRSA, hbit, ht, KeyAlgoRSA]
  refine ⟨?_, ?_, ?_⟩
  · simp [keyIssues, hb, hdsa, hw]
  · simp [rowOf, hbit]
  · simp only [renderedFields, rowOf, hbit, List.head?]
    rfl

/-- Witness for C10 at the concrete failing RSA key. -/
theorem bitlen_failure_weak_classification_witness :
    (⟨demoFailKey, false⟩ : publicKey).key.bitLenRes = none
      ∧ (keyIssues ⟨demoFailKey, false⟩ = "WEAK KEY LENGTH"
         ∧ (rowOf ⟨demoFailKey, false⟩).bits = 0
         ∧ (renderedFields (rowOf ⟨demoFailKey, false⟩)).head? = some "0") :=
  ⟨rfl, bitlen_failure_weak_classification ⟨demoFailKey, false⟩ rfl rfl rfl⟩

theorem stepEvent_replies (s : ChanState) (e : ReqEvent) :
    (stepEvent s e).replies
      = s.replies ++ (match e with
          | ReqEvent.req ty true => [ty == "shell" || ty == "pty-req"]
          | _ => []) := by
  cases e with
  | timerFire =>
      simp only [stepEvent, stopAndOpen]
      split <;> simp
  | req ty w =>
      cases w <;> simp only [stepEvent, stopAndOpen] <;> split_ifs <;> simp_all

theorem foldl_stepEvent_replies (events : List ReqEvent) :
    ∀ s : ChanState,
      (events.foldl stepEvent s).replies = s.replies ++ expectedReplies events := by
  induction events with
  | nil => intro s; simp [expectedReplies]
  | cons e t ih =>
      intro s
      simp only [List.foldl_cons]
      rw [ih, stepEvent_replies]
      cases e with
      | timerFire => simp [expectedReplies]
      | req ty w => cases w <;> simp [expectedReplies]

/-- Counterexample for C3: an agent-forwarding request that wants a reply
is acknowledged negatively (the loop leaves `ok` false for
"auth-agent-req@openssh.com"), contradicting the claim that the
acknowledgement is affirmative for each of the three recognized types. -/
theorem agent_request_acked_negative :
    (runChannelRequests [ReqEvent.req "auth-agent-req@openssh.com" true]).replies
        = [false]
      ∧ (runChannelRequests [ReqEvent.req "auth-agent-req@openssh.com" true]).replies
        ≠ [true] := by
  constructor <;> decide

/-- Claim C3 as amended: every request that wants a reply receives exactly
one acknowledgement, in arrival order and before the next request is
processed; the acknowledgement is affirmative exactly for "shell" and
"pty-req", and negative for every other type — including the recognized
agent-forwarding and x11 requests, whose flags are still set. -/
theorem channel_replies_per_request (events : List ReqEvent) :
    (runChannelRequests events).replies = expectedReplies events := by
  rw [runChannelRequests, stepEvent_replies, foldl_stepEvent_replies]
  simp [initChanState]

/-- The latch invariant: the lock has been released exactly once iff the
timer is spent (a successful `timer.Stop` and the timer callback are the
only two unlock sites, and each runs only when the timer is pending). -/
def latchInv (s : ChanState) : Prop :=
  s.opens = if s.timerActive then 0 else 1

theorem stepEvent_latchInv (s : ChanState) (e : ReqEvent) (h : latchInv s) :
    latchInv (stepEvent s e) := by
  cases e with
  | timerFire =>
      simp only [stepEvent, stopAndOpen]
      split <;> simp_all [latchInv]
  | req ty w =>
      cases w <;> simp only [stepEvent, stopAndOpen] <;> split_ifs <;>
        simp_all [latchInv]

theorem foldl_stepEvent_latchInv (events : List ReqEvent) :
    ∀ s : ChanState, latchInv s → latchInv (events.foldl stepEvent s) := by
  induction events with
  | nil => intro s h; exact h
  | cons e t ih =>
      intro s h
      exact ih (stepEvent s e) (stepEvent_latchInv s e h)

theorem stopAndOpen_timer_spent (s : ChanState) :
    (stopAndOpen s).timerActive = false := by
  by_cases h : s.timerActive <;> simp [stopAndOpen, h]

/-- Claim C6: the latch opens exactly once per channel — at any point
while the request stream is being drained the lock has been released at
most once, and over a complete run (where the armed timer eventually fires
unless a pty/shell request stopped it) it is released exactly once; in
particular a second pty/shell request never triggers a second release,
because `timeout.Stop()` succeeds at most once. -/
theorem latch_opens_exactly_once (events : List ReqEvent) :
    (events.foldl stepEvent initChanState).opens ≤ 1
      ∧ (runChannelRequests events).opens = 1 := by
  have hinit : latchInv initChanState := by simp [latchInv, initChanState]
  have hfold := foldl_stepEvent_latchInv events initChanState hinit
  constructor
  · rw [hfold]
    split <;> simp
  · have hfin := stepEvent_latchInv (events.foldl stepEvent initChanState)
      ReqEvent.timerFire hfold
    have hspent : (stepEvent (events.foldl stepEvent initChanState)
        ReqEvent.timerFire).timerActive = false := by
      simp only [stepEvent]
      exact stopAndOpen_timer_spent _
    rw [runChannelRequests]
    rw [latchInv, hspent] at hfin
    simpa using hfin

theorem auditLoop_blacklisted (ks : List publicKey) :
    ∀ b d w, (auditLoop ks b d w).blacklisted
      = (b || ks.any fun k => k.blacklisted) := by
  induction ks with
  | nil => intro b d w; simp [auditLoop]
  | cons k t ih =>
      intro b d w
      cases hk : k.blacklisted <;>
        simp [auditLoop, ih, hk, Bool.or_assoc]

theorem auditLoop_dsa (ks : List publicKey) :
    ∀ b d w, (auditLoop ks b d w).dsa = (d || ks.any isDSAKey) := by
  induction ks with
  | nil => intro b d w; simp [auditLoop]
  | cons k t ih =>
      intro b d w
      cases hk : isDSAKey k <;>
        simp [auditLoop, ih, hk, Bool.or_assoc]

theorem auditLoop_weak (ks : List publicKey) :
    ∀ b d w, (auditLoop ks b d w).weak = (w || ks.any isWeakRSA) := by
  induction ks with
  | nil => intro b d w; simp [auditLoop]
  | cons k t ih =>
      intro b d w
      cases hk : isWeakRSA k <;>
        simp [auditLoop, ih, hk, Bool.or_assoc]

/-- Claim C7: the channel writes occur in this exact order — welcome text,
one table row per key in harvest order, the aggregate paragraphs with
blacklist first, then DSA, then weak-length, then the latch wait, then the
agent-forwarding warning if flagged, then the x11 warning if flagged, then
the channel close; and the blacklist and weak-length flags are set
independently (each is true exactly when some key trips its condition), so
a session holding both a weak RSA key and a blacklisted key gets both
paragraphs. -/
theorem report_write_order (isBL : SSHPublicKey → Bool)
    (keys0 : List publicKey) (events : List ReqEvent) :
    channelOutput isBL keys0 events
        = [WriteItem.welcome]
          ++ ((markBlacklistedKeys isBL keys0).map rowOf).map WriteItem.row
          ++ (if (markBlacklistedKeys isBL keys0).any (fun k => k.blacklisted)
              then [WriteItem.blacklistMsg] else [])
          ++ (if (markBlacklistedKeys isBL keys0).any isDSAKey
              then [WriteItem.dsaMsg] else [])
          ++ (if (markBlacklistedKeys isBL keys0).any isWeakRSA
              then [WriteItem.weakMsg] else [])
          ++ [WriteItem.latchWait]
          ++ (if (runChannelRequests events).agentFwd
              then [WriteItem.agentMsg] else [])
          ++ (if (runChannelRequests events).x11
              then [WriteItem.x11Msg] else [])
          ++ [WriteItem.closeChannel]
      ∧ ((markBlacklistedKeys isBL keys0).any (fun k => k.blacklisted) = true →
          (markBlacklistedKeys isBL keys0).any isWeakRSA = true →
          WriteItem.blacklistMsg ∈ channelOutput isBL keys0 events
            ∧ WriteItem.weakMsg ∈ channelOutput isBL keys0 events) := by
  have heq : channelOutput isBL keys0 events
      = [WriteItem.welcome]
        ++ ((markBlacklistedKeys isBL keys0).map rowOf).map WriteItem.row
        ++ (if (markBlacklistedKeys isBL keys0).any (fun k => k.blacklisted)
            then [WriteItem.blacklistMsg] else [])
        ++ (if (markBlacklistedKeys isBL keys0).any isDSAKey
            then [WriteItem.dsaMsg] else [])
        ++ (if (markBlacklistedKeys isBL keys0).any isWeakRSA
            then [WriteItem.weakMsg] else [])
        ++ [WriteItem.latchWait]
        ++ (if (runChannelRequests events).agentFwd
            then [WriteItem.agentMsg] else [])
        ++ (if (runChannelRequests events).x11
            then [WriteItem.x11Msg] else [])
        ++ [WriteItem.closeChannel] := by
    simp only [channelOutput, auditLoop_rows, auditLoop_blacklisted,
      auditLoop_dsa, auditLoop_weak, Bool.false_or]
    split_ifs <;> simp [List.append_assoc]
  refine ⟨heq, ?_⟩
  intro h1 h2
  rw [heq]
  constructor <;> simp [h1, h2]

/-- Witness for C7's independence part at the spec's scenario: one 1024-bit
RSA key plus one blacklisted 256-bit ECDSA key yields both the blacklist
and the weak-length paragraphs. -/
theorem report_write_order_witness :
    (markBlacklistedKeys demoBlacklist demoKeys).any (fun k => k.blacklisted) = true
      ∧ (markBlacklistedKeys demoBlacklist demoKeys).any isWeakRSA = true
      ∧ (WriteItem.blacklistMsg ∈ channelOutput demoBlacklist demoKeys []
         ∧ WriteItem.weakMsg ∈ channelOutput demoBlacklist demoKeys []) :=
  ⟨by decide, by decide,
   (report_write_order demoBlacklist demoKeys []).2 (by decide) (by decide)⟩

end CheckMySSHKey
